import Mathlib

/-!
Verification of the regions repository core: the RegionsRegistry dispatch
class (src/regions/core/registry.py) and the ds9 serialization pipeline
(src/regions/io/ds9/write.py).  Python values are shallowly embedded:
floats become rationals, dicts become ordered association lists, fallible
code returns Except, and warnings are collected into an explicit list.
-/

/-- Python exception values raised by the embedded code. -/
inductive PyErr where
  | keyError (key : String)
  | valueError (msg : String)
  | typeError
  | attributeError (attr : String)
  | indexError
  | osError (msg : String)
  | ioRegistryError (msg : String)
  deriving DecidableEq, Repr

/-- Python metadata values occurring in region meta and visual dicts. -/
inductive MetaVal where
  | str (s : String)
  | int (n : Int)
  | bool (b : Bool)
  | rat (q : ℚ)
  | intList (l : List Int)
  | strList (l : List String)
  deriving DecidableEq, Repr

/-- Ordered association list modelling a Python dict with string keys. -/
abbrev Meta := List (String × MetaVal)

/-- Dict lookup: first entry with the given key. -/
def alistLookup {β : Type} : List (String × β) → String → Option β
  | [], _ => none
  | p :: rest, k => if p.1 = k then some p.2 else alistLookup rest k

/-- Dict assignment: replace the value in place when the key exists,
otherwise append the pair, exactly as a Python dict does. -/
def alistSet {β : Type} : List (String × β) → String → β → List (String × β)
  | [], k, v => [(k, v)]
  | p :: rest, k, v => if p.1 = k then (k, v) :: rest else p :: alistSet rest k v

/-- Dict deletion of a key (dict.pop with the key present, or a no-op
erase when it is absent). -/
def alistErase {β : Type} : List (String × β) → String → List (String × β)
  | [], _ => []
  | p :: rest, k => if p.1 = k then alistErase rest k else p :: alistErase rest k

/-- Python dict merge as in the expression with double-star unpacking of
a then b: entries of b override entries of a, new keys append in order. -/
def dictMerge (a b : Meta) : Meta :=
  b.foldl (fun acc p => alistSet acc p.1 p.2) a

/-- Python str of a metadata value, as used inside f-strings. str of a
rational models str of a float only where the value is needed by the
claims; list renderings mirror the Python bracket syntax. -/
def pyStr : MetaVal → String
  | .str s => s
  | .int n => toString n
  | .bool b => if b then "True" else "False"
  | .rat q => if q.den = 1 then toString q.num ++ ".0" else toString q.num ++ "/" ++ toString q.den
  | .intList l => "[" ++ String.intercalate ", " (l.map toString) ++ "]"
  | .strList l => "[" ++ String.intercalate ", " (l.map (fun s => "\x27" ++ s ++ "\x27")) ++ "]"

/-- Left-pad a digit string with zeros to the given width. -/
def padZeros (s : String) (w : Nat) : String :=
  if s.length < w then String.mk (List.replicate (w - s.length) '0') ++ s else s

/-- Floor of a rational as an integer. -/
def ratFloor (q : ℚ) : Int := Int.fdiv q.num q.den

/-- Python fixed-point formatting of a number with prec digits after the
decimal point, the format spec dot-prec-f: round the scaled value to the
nearest integer with ties to even, then print the integer and padded
fractional digits.  Exact for the binary-exact values the claims evaluate. -/
def pyFormatFixed (q : ℚ) (prec : Nat) : String :=
  let base : Nat := 10 ^ prec
  let num := q.num * (base : Int)
  let den : Int := (q.den : Int)
  let f := Int.fdiv num den
  let r := num - f * den
  let n := if 2 * r < den then f
           else if den < 2 * r then f + 1
           else if Int.emod f 2 = 0 then f else f + 1
  let sign := if n < 0 then "-" else ""
  let a := n.natAbs
  let ip := a / base
  let fp := a % base
  if prec = 0 then sign ++ toString ip
  else sign ++ toString ip ++ "." ++ padZeros (toString fp) prec

/-- ASCII lowering of one character, as Python str.lower acts on the
ASCII class names this pipeline handles. -/
def pyLowerChar (c : Char) : Char :=
  if 'A' ≤ c ∧ c ≤ 'Z' then Char.ofNat (c.toNat + 32) else c

/-- Python str.lower restricted to ASCII. -/
def pyLower (s : String) : String := String.mk (s.data.map pyLowerChar)

/-- Fuel-driven worker for pyReplace: replace every non-overlapping
occurrence of the pattern, left to right. -/
def pyReplaceFuel (pat repl : List Char) : Nat → List Char → List Char
  | 0, l => l
  | _, [] => []
  | fuel + 1, c :: rest =>
    if pat ≠ [] ∧ pat.isPrefixOf (c :: rest) then
      repl ++ pyReplaceFuel pat repl fuel (List.drop pat.length (c :: rest))
    else c :: pyReplaceFuel pat repl fuel rest

/-- Python str.replace for a non-empty pattern: every non-overlapping
occurrence is replaced left to right. -/
def pyReplace (s pat repl : String) : String :=
  String.mk (pyReplaceFuel pat.data repl.data s.data.length s.data)

/-- Worker for pyContains: does the pattern occur at any position. -/
def strContainsAux (pat : List Char) : List Char → Bool
  | [] => pat.isPrefixOf []
  | c :: rest => pat.isPrefixOf (c :: rest) || strContainsAux pat rest

/-- Python substring membership test. -/
def pyContains (s sub : String) : Bool := strContainsAux sub.data s.data

/-- Modelled external astropy SkyCoord scalar: its frame name and the
result of its to-string rendering at the ambient precision (the astropy
formatter is an external collaborator of this core). -/
structure SkyCoordM where
  frameName : String
  rendered : String
  deriving DecidableEq, Repr

/-- Value of one named geometric region attribute, tagged by the Python
runtime type the pipeline dispatches on. -/
inductive AttrVal where
  | pix (x y : Int)
  | sky (c : SkyCoordM)
  | skyList (frameName : String) (rendered : List String)
  | angle (deg : ℚ)
  | quantity (deg : ℚ)
  | num (q : ℚ)
  deriving DecidableEq, Repr

/-- Shallow embedding of a regions Region object: the class name (used by
the shape canonicalization), whether it is a PixelRegion, the ordered
parameter name list, the attribute values, and the meta and visual dicts. -/
structure RegionM where
  className : String
  isPixel : Bool
  params : List String
  attrs : List (String × AttrVal)
  meta : Meta
  visual : Meta
  deriving Repr

/-- Per-region serialization record produced by serialize_region_ds9. -/
structure RegionData where
  frame : String
  shape : String
  meta : Meta
  deriving DecidableEq, Repr

/-- Template fragment of a ds9 shape parameter template: literal text or
a named placeholder. -/
inductive TmplPart where
  | lit (s : String)
  | ph (name : String)
  deriving DecidableEq, Repr

/-- Python str.format over a template: placeholders are looked up in the
rendered parameter dict; a missing placeholder raises KeyError. -/
def formatTemplate : List TmplPart → List (String × String) → Except PyErr String
  | [], _ => .ok ""
  | .lit s :: rest, ps =>
    match formatTemplate rest ps with
    | .ok t => .ok (s ++ t)
    | .error e => .error e
  | .ph n :: rest, ps =>
    match alistLookup ps n with
    | none => .error (.keyError n)
    | some v =>
      match formatTemplate rest ps with
      | .ok t => .ok (v ++ t)
      | .error e => .error e

/-- Frame mapping of _serialize_region_ds9: astropy frame names to ds9
frame keywords. -/
def frame_mapping : List (String × String) :=
  [("image", "image"), ("icrs", "icrs"), ("fk5", "fk5"), ("fk4", "fk4"),
   ("galactic", "galactic"), ("geocentrictrueecliptic", "ecliptic")]

/-- Shape templates of _serialize_region_ds9: canonical shape key to the
ds9 shape name and the parameter template.  The rectangle template lacks
a comma before the angle placeholder, exactly as in the source. -/
def shape_templates : List (String × String × List TmplPart) :=
  [("circle", ("circle", [.ph "radius"])),
   ("ellipse", ("ellipse", [.ph "width", .lit ",", .ph "height", .lit ",", .ph "angle"])),
   ("rectangle", ("box", [.ph "width", .lit ",", .ph "height", .ph "angle"])),
   ("circleannulus", ("annulus", [.ph "inner_radius", .lit ",", .ph "outer_radius"])),
   ("ellipseannulus", ("ellipse",
      [.ph "inner_width", .lit ",", .ph "inner_height", .lit ",",
       .ph "outer_width", .lit ",", .ph "outer_height", .lit ",", .ph "angle"])),
   ("rectangleannulus", ("box",
      [.ph "inner_width", .lit ",", .ph "inner_height", .lit ",",
       .ph "outer_width", .lit ",", .ph "outer_height", .lit ",", .ph "angle"])),
   ("polygon", ("polygon", [.ph "vertices"])),
   ("line", ("line", [.ph "start", .lit ",", .ph "end"])),
   ("point", ("point", [])),
   ("text", ("text", []))]

/-- Frame name of the attribute with the given name, as region attribute
dot frame dot name reads it in Python. -/
def attrFrame (r : RegionM) (name : String) : Except PyErr String :=
  match alistLookup r.attrs name with
  | some (.sky c) => .ok c.frameName
  | some (.skyList f _) => .ok f
  | some _ => .error (.attributeError "frame")
  | none => .error (.attributeError name)

/-- Embedding of _get_frame_name: resolve the frame of a region, warn and
then subscript the mapping (raising KeyError) when the frame is unmapped.
Returns the warnings emitted alongside the result. -/
def get_frame_name (r : RegionM) (mapping : List (String × String)) :
    List String × Except PyErr String :=
  let frameE : Except PyErr String :=
    if r.isPixel then .ok "image"
    else if r.params.contains "center" then attrFrame r "center"
    else if r.params.contains "vertices" then attrFrame r "vertices"
    else if r.params.contains "start" then attrFrame r "start"
    else .error (.valueError "unable to determine frame name")
  match frameE with
  | .error e => ([], .error e)
  | .ok frame =>
    match alistLookup mapping frame with
    | some v => ([], .ok v)
    | none =>
      (["Cannot serialize region with frame=" ++ frame ++ ", skipping"],
       .error (.keyError frame))

/-- Embedding of _get_region_shape: canonicalize the class name and then
subscript the template mapping, warning first when the key is unmapped. -/
def get_region_shape (r : RegionM) (mapping : List (String × String × List TmplPart)) :
    List String × Except PyErr (String × String) :=
  let shape :=
    pyReplace (pyReplace (pyReplace (pyLower r.className) "skyregion" "") "pixelregion" "")
      "regularpolygon" "polygon"
  match alistLookup mapping shape with
  | some pr => ([], .ok (shape, pr.1))
  | none =>
    (["Cannot serialize region shape \"" ++ shape ++ "\", skipping"],
     .error (.keyError shape))

/-- Embedding of _get_region_center: pixel centers are shifted by one for
the ds9 one-based origin; sky centers go through the external astropy
formatter with the blank separator replaced by a comma. -/
def get_region_center (r : RegionM) (_precision : Nat) : Except PyErr String :=
  if r.isPixel then
    if r.params.contains "center" then
      match alistLookup r.attrs "center" with
      | some (.pix x y) => .ok (toString (x + 1) ++ "," ++ toString (y + 1))
      | some _ => .error .typeError
      | none => .error (.attributeError "center")
    else .ok ""
  else
    if r.params.contains "center" then
      match alistLookup r.attrs "center" with
      | some (.sky c) => .ok (pyReplace c.rendered " " ",")
      | some _ => .error .typeError
      | none => .error (.attributeError "center")
    else .ok ""

/-- Type-directed rendering of one shape parameter, mirroring the isinstance
chain of _get_shape_params.  The ignored precision argument of the sky cases
marks that the external astropy renderings are stored pre-formatted. -/
def render_param (v : AttrVal) (precision : Nat) : Except PyErr String :=
  match v with
  | .angle q => .ok (pyFormatFixed q precision)
  | .quantity q => .ok ((pyFormatFixed q precision ++ " deg").dropRight 4)
  | .sky c => .ok (pyReplace c.rendered " " ",")
  | .skyList _ rs => .ok (pyReplace (String.intercalate " " rs) " " ",")
  | .num q => .ok (pyFormatFixed q precision)
  | .pix _ _ => .error .typeError

/-- Rendered parameter dict of _get_shape_params: every named parameter
except center and text, in parameter order. -/
def build_params (r : RegionM) : List String → Nat → Except PyErr (List (String × String))
  | [], _ => .ok []
  | n :: rest, precision =>
    if n = "center" ∨ n = "text" then build_params r rest precision
    else
      match alistLookup r.attrs n with
      | none => .error (.attributeError n)
      | some v =>
        match render_param v precision with
        | .error e => .error e
        | .ok s =>
          match build_params r rest precision with
          | .error e => .error e
          | .ok tail => .ok ((n, s) :: tail)

/-- Embedding of _get_shape_params: render the parameters and substitute
them into the template; a missing placeholder becomes ValueError. -/
def get_shape_params (r : RegionM) (template : List TmplPart) (precision : Nat) :
    Except PyErr String :=
  match build_params r r.params precision with
  | .error e => .error e
  | .ok ps =>
    match formatTemplate template ps with
    | .ok s => .ok s
    | .error _ => .error (.valueError ("unable to get shape parameters for " ++ r.className))

/-- Valid ds9 meta keys of _serialize_region_ds9 (meta keys followed by
visual keys, in source order). -/
def valid_keys_ds9 : List String :=
  ["text", "select", "highlite", "fixed", "edit", "move", "rotate", "delete",
   "include", "tag",
   "color", "textangle", "textrotate", "dash", "dashlist", "width", "font",
   "fill", "point"]

/-- Embedding of _remove_invalid_keys: keep only whitelisted keys. -/
def remove_invalid_keys (region_meta : Meta) (valid_keys : List String) : Meta :=
  region_meta.filter (fun p => valid_keys.contains p.1)

/-- Python int conversion of a metadata value, as int of the dash flag. -/
def pyInt : MetaVal → Except PyErr Int
  | .int n => .ok n
  | .bool b => .ok (if b then 1 else 0)
  | .str s =>
    match s.toInt? with
    | some n => .ok n
    | none => .error (.valueError ("invalid literal for int: " ++ s))
  | .rat q => .ok (if q < 0 then -(ratFloor (-q)) else ratFloor q)
  | _ => .error .typeError

/-- Python str.split of the dashlist string followed by int conversion of
every field. -/
def parseDashlist (v : MetaVal) : Except PyErr (List Int) :=
  match v with
  | .str s =>
    let fields := (s.split (fun c => c = ' ')).filter (fun t => t ≠ "")
    fields.foldr
      (fun f acc =>
        match acc with
        | .error e => .error e
        | .ok l =>
          match f.toInt? with
          | some n => .ok (n :: l)
          | none => .error (.valueError ("invalid literal for int: " ++ f)))
      (.ok [])
  | _ => .error .typeError

/-- Embedding of _translate_to_mpl_meta: translate the region visual dict
into the matplotlib vocabulary (dash and dashlist to linestyle and dashes,
font to fontname, symbol and symsize to marker and markersize). -/
def translate_to_mpl_meta (r : RegionM) : Except PyErr Meta :=
  let m := r.visual
  let dash := (alistLookup m "dash").getD (.int 0)
  let m := alistErase m "dash"
  let dashlist := alistLookup m "dashlist"
  let m := alistErase m "dashlist"
  match pyInt dash with
  | .error e => .error e
  | .ok di =>
    let stepDash : Except PyErr Meta :=
      if di = 1 then
        let m := alistSet m "linestyle" (.str "dashed")
        match dashlist with
        | none => .ok m
        | some dl =>
          match parseDashlist dl with
          | .error e => .error e
          | .ok ints => .ok (alistSet m "dashes" (.intList ints))
      else .ok m
    match stepDash with
    | .error e => .error e
    | .ok m =>
      let m :=
        match alistLookup m "font" with
        | some f => alistSet (alistErase m "font") "fontname" f
        | none => m
      let m :=
        match alistLookup m "symbol" with
        | some s => alistSet (alistErase m "symbol") "marker" s
        | none => m
      let m :=
        match alistLookup m "symsize" with
        | some s => alistSet (alistErase m "symsize") "markersize" s
        | none => m
      .ok m

/-- Inclusion-flag paragraph of _translate_ds9_meta: the value is compared
with the Python identity test against True, and an absent flag defaults to
included. -/
def translate_include (m : Meta) : Meta :=
  match alistLookup m "include" with
  | some v =>
    if v = .bool true then alistSet m "include" (.int 1)
    else alistSet m "include" (.int 0)
  | none => alistSet m "include" (.int 1)

/-- Text paragraph of _translate_ds9_meta: wrap the label in braces. -/
def translate_text (m : Meta) : Meta :=
  match alistLookup m "text" with
  | some v => alistSet m "text" (.str ("\x7b" ++ pyStr v ++ "\x7d"))
  | none => m

/-- Width paragraphs of _translate_ds9_meta: linewidth and then
markeredgewidth both pop into the single width key. -/
def translate_width (m : Meta) : Meta :=
  let m1 :=
    match alistLookup m "linewidth" with
    | some v => alistSet (alistErase m "linewidth") "width" v
    | none => m
  match alistLookup m1 "markeredgewidth" with
  | some v => alistSet (alistErase m1 "markeredgewidth") "width" v
  | none => m1

/-- Font paragraph of _translate_ds9_meta.  The source pops the key
fontname again for the size and for the weight (instead of fontsize and
fontweight), so both always take their defaults; this model reproduces
that verbatim. -/
def translate_font (m : Meta) : Except PyErr Meta :=
  match alistLookup m "fontname" with
  | none => .ok m
  | some fontname =>
    let m1 := alistErase m "fontname"
    let fontsize := (alistLookup m1 "fontname").getD (.int 10)
    let m2 := alistErase m1 "fontname"
    let fontweight := (alistLookup m2 "fontname").getD (.str "normal")
    let m3 := alistErase m2 "fontname"
    let fontstyle0 := (alistLookup m3 "fontstyle").getD (.str "roman")
    let m4 := alistErase m3 "fontstyle"
    match fontstyle0 with
    | .str s =>
      .ok (alistSet m4 "font"
        (.str ("\x22" ++ pyStr fontname ++ " " ++ pyStr fontsize ++ " "
          ++ pyStr fontweight ++ " " ++ pyReplace s "normal" "roman" ++ "\x22")))
    | _ => .error (.attributeError "replace")

/-- Dash paragraph of _translate_ds9_meta: linestyle is popped first, the
dashed test drives the dash flag, and the dashes pair is rendered into the
dashlist string by subscripting its first two elements. -/
def translate_dash (m : Meta) : Except PyErr Meta :=
  let ls := alistLookup m "linestyle"
  let m1 := alistErase m "linestyle"
  if ls = some (.str "dashed") ∨ ls = some (.str "--") then
    let m2 := alistSet m1 "dash" (.int 1)
    match alistLookup m2 "dashes" with
    | none => .ok m2
    | some d =>
      let m3 := alistErase m2 "dashes"
      match d with
      | .intList (a :: b :: _) =>
        .ok (alistSet m3 "dashlist" (.str (toString a ++ " " ++ toString b)))
      | .intList _ => .error .indexError
      | _ => .error .typeError
  else .ok m1

/-- Modelled from the spec: the ds9 symbol table valid_symbols_ds9 lives
in src/regions/io/ds9/core.py which is not part of the provided sources;
the spec fixes only that markers resolve through a reverse lookup of that
table and that a marker with no reverse mapping is a hard error.  No
claim proved here depends on its entries, so it is modelled as empty. -/
def valid_symbols_ds9 : List (String × String) := []

/-- Reverse of the symbol table, as the dict comprehension builds it. -/
def symbol_map_rev : List (String × String) :=
  valid_symbols_ds9.map (fun p => (p.2, p.1))

/-- Marker paragraph of _translate_ds9_meta: pop marker and markersize and
resolve the marker through the reversed symbol table; an unmapped marker
raises KeyError. -/
def translate_marker (m : Meta) : Except PyErr Meta :=
  match alistLookup m "marker" with
  | none => .ok m
  | some marker =>
    let m1 := alistErase m "marker"
    let msize := (alistLookup m1 "markersize").getD (.int 11)
    let m2 := alistErase m1 "markersize"
    match marker with
    | .str ms =>
      match alistLookup symbol_map_rev ms with
      | some sym => .ok (alistSet m2 "point" (.str (sym ++ " " ++ pyStr msize)))
      | none => .error (.keyError ms)
    | _ => .error (.keyError (pyStr marker))

/-- Embedding of _translate_ds9_meta: the translation paragraphs in source
order (include, text, widths, font, dash, marker). -/
def translate_ds9_meta (m : Meta) : Except PyErr Meta :=
  match translate_font (translate_width (translate_text (translate_include m))) with
  | .error e => .error e
  | .ok m1 =>
    match translate_dash m1 with
    | .error e => .error e
    | .ok m2 => translate_marker m2

/-- Embedding of _serialize_region_ds9: resolve frame and shape (collecting
their warnings), render center and parameters into the shape clause, then
translate and whitelist the metadata. -/
def serialize_region_ds9 (r : RegionM) (precision : Nat) :
    List String × Except PyErr RegionData :=
  match get_frame_name r frame_mapping with
  | (w1, .error e) => (w1, .error e)
  | (w1, .ok frame) =>
    match get_region_shape r shape_templates with
    | (w2, .error e) => (w1 ++ w2, .error e)
    | (w2, .ok (shape, region_type)) =>
      (w1 ++ w2,
        match get_region_center r precision with
        | .error e => .error e
        | .ok center =>
          match alistLookup shape_templates shape with
          | none => .error (.keyError shape)
          | some pr =>
            match get_shape_params r pr.2 precision with
            | .error e => .error e
            | .ok params0 =>
              let params := if params0 = "" then "" else "," ++ params0
              let shape_str := region_type ++ "(" ++ center ++ params ++ ")"
              match translate_to_mpl_meta r with
              | .error e => .error e
              | .ok visual_meta =>
                let region_meta := dictMerge r.meta visual_meta
                match translate_ds9_meta region_meta with
                | .error e => .error e
                | .ok meta =>
                  .ok ⟨frame, shape_str, remove_invalid_keys meta valid_keys_ds9⟩)

/-- Tag tokens of _make_meta_str: the tag value is iterated, yielding one
tag token per element (per character when the value is a plain string, as
Python iteration would); a non-iterable tag value raises TypeError. -/
def tagTokens : MetaVal → Except PyErr (List String)
  | .strList l => .ok (l.map (fun v => "tag=" ++ v))
  | .str s => .ok (s.toList.map (fun c => "tag=" ++ String.mk [c]))
  | _ => .error .typeError

/-- Token list of _make_meta_str, in dict order. -/
def metaTokens : Meta → Except PyErr (List String)
  | [] => .ok []
  | (k, v) :: rest =>
    match (if k = "tag" then
             match tagTokens v with
             | .ok ts => .ok (String.intercalate " " ts)
             | .error e => .error e
           else .ok (k ++ "=" ++ pyStr v) : Except PyErr String) with
    | .error e => .error e
    | .ok tok =>
      match metaTokens rest with
      | .error e => .error e
      | .ok tl => .ok (tok :: tl)

/-- Embedding of _make_meta_str: blank-joined key=value tokens, with the
tag entry expanded into one token per tag value. -/
def make_meta_str (m : Meta) : Except PyErr String :=
  match metaTokens m with
  | .error e => .error e
  | .ok ts => .ok (String.intercalate " " ts)

/-- Per-region serialization loop of _new_serialize_ds9: the first raised
exception aborts the loop, keeping the warnings emitted so far. -/
def serialize_regions_ds9 : List RegionM → Nat → List String × Except PyErr (List RegionData)
  | [], _ => ([], .ok [])
  | r :: rest, precision =>
    match serialize_region_ds9 r precision with
    | (w, .error e) => (w, .error e)
    | (w, .ok d) =>
      match serialize_regions_ds9 rest precision with
      | (w2, .error e) => (w ++ w2, .error e)
      | (w2, .ok ds) => (w ++ w2, .ok (d :: ds))

/-- First mutation loop of _new_serialize_ds9: popping tag from each
aliased region meta removes it from the region data itself. -/
def erase_tag_all (l : List RegionData) : List RegionData :=
  l.map (fun d => ⟨d.frame, d.shape, alistErase d.meta "tag"⟩)

/-- Global metadata of _new_serialize_ds9: the pairwise intersection of the
item sets of every region meta; the starred call on an empty collection
raises TypeError. -/
def global_meta_of : List Meta → Except PyErr Meta
  | [] => .error .typeError
  | d :: ds => .ok (d.filter (fun p => ds.all (fun m => decide (p ∈ m))))

/-- Key-removal loop popping every global key from one region meta; pop
without a default raises KeyError on a missing key. -/
def remove_global_keys : Meta → Meta → Except PyErr Meta
  | [], m => .ok m
  | p :: rest, m =>
    match alistLookup m p.1 with
    | some _ => remove_global_keys rest (alistErase m p.1)
    | none => .error (.keyError p.1)

/-- Second mutation loop of _new_serialize_ds9: remove the global keys
from every region meta. -/
def remove_all_globals (g : Meta) : List RegionData → Except PyErr (List RegionData)
  | [] => .ok []
  | d :: rest =>
    match remove_global_keys g d.meta with
    | .error e => .error e
    | .ok m =>
      match remove_all_globals g rest with
      | .error e => .error e
      | .ok tl => .ok (⟨d.frame, d.shape, m⟩ :: tl)

/-- One output line per region, in collection order. -/
def render_region_lines : List RegionData → Except PyErr String
  | [] => .ok ""
  | d :: rest =>
    match make_meta_str d.meta with
    | .error e => .error e
    | .ok ms =>
      match render_region_lines rest with
      | .error e => .error e
      | .ok tl => .ok (d.frame ++ "; " ++ d.shape ++ " # " ++ ms ++ "\n" ++ tl)

/-- Fixed identifying header line of the ds9 document. -/
def ds9_file_header : String := "# Region file format: DS9 astropy/regions\n"

/-- Document assembly of _new_serialize_ds9 given the per-region data:
header, optional global line, then the region lines. -/
def assemble_ds9 (rds : List RegionData) : Except PyErr String :=
  let notag := erase_tag_all rds
  match global_meta_of (notag.map (fun d => d.meta)) with
  | .error e => .error e
  | .ok g =>
    match (if g.isEmpty then .ok "" else
            match make_meta_str g with
            | .ok gs => .ok ("global " ++ gs ++ "\n")
            | .error e => .error e : Except PyErr String) with
    | .error e => .error e
    | .ok gline =>
      match remove_all_globals g notag with
      | .error e => .error e
      | .ok finals =>
        match render_region_lines finals with
        | .error e => .error e
        | .ok lines => .ok (ds9_file_header ++ gline ++ lines)

/-- Embedding of _new_serialize_ds9: serialize every region, then factor
the shared metadata and assemble the document.  The trailing Python print
call is a side effect outside the model. -/
def new_serialize_ds9 (regions : List RegionM) (precision : Nat) :
    List String × Except PyErr String :=
  match serialize_regions_ds9 regions precision with
  | (w, .error e) => (w, .error e)
  | (w, .ok rds) => (w, assemble_ds9 rds)

/-- Target classes an I/O operation is registered against (the Region and
Regions classes of the repository). -/
inductive ClassObj where
  | region
  | regions
  deriving DecidableEq, Repr

/-- Python class name, as classobj dunder-name reads it. -/
def ClassObj.name : ClassObj → String
  | .region => "Region"
  | .regions => "Regions"

/-- Handler values stored in the registry.  The two legacy ds9 functions
and the unregistered new pipeline get distinguished tags; identify
predicates carry their predicate function. -/
inductive Handler where
  | identPred (p : String → String → Bool)
  | legacySerializeDs9
  | legacyWriteDs9
  | newSerializeDs9Fn
  | other (tag : String)

/-- One registry entry: the key triple and its handler. -/
structure RegEntry where
  classobj : ClassObj
  methodname : String
  filetype : String
  handler : Handler

/-- The RegionsRegistry table, in registration order (Python dicts keep
insertion order and keys are unique by construction of reg_register). -/
abbrev Registry := List RegEntry

/-- Embedding of RegionsRegistry.register: duplicate keys raise
ValueError, otherwise the entry is appended. -/
def reg_register (reg : Registry) (c : ClassObj) (methodname filetype : String)
    (h : Handler) : Except PyErr Registry :=
  if reg.any (fun e => decide (e.classobj = c ∧ e.methodname = methodname ∧
      e.filetype = filetype)) then
    .error (.valueError (methodname ++ " for " ++ filetype ++
      " is already registered for " ++ c.name))
  else .ok (reg ++ [⟨c, methodname, filetype, h⟩])

/-- Exact-key handler lookup, the dict subscript of the registry. -/
def lookupHandler (reg : Registry) (c : ClassObj) (m f : String) : Option Handler :=
  match reg.find? (fun e => decide (e.classobj = c ∧ e.methodname = m ∧
      e.filetype = f)) with
  | some e => some e.handler
  | none => none

/-- Embedding of RegionsRegistry.get_identifiers: the identify entries of
one class, in registration order (the Python version returns the keys;
entries carry the same information plus the handler the caller fetches). -/
def reg_get_identifiers (reg : Registry) (c : ClassObj) : List RegEntry :=
  reg.filter (fun e => decide (e.classobj = c ∧ e.methodname = "identify"))

/-- Calling a registered identifier with methodname and filename; calling
a non-predicate handler that way raises TypeError. -/
def run_identifier (h : Handler) (methodname filename : String) : Except PyErr Bool :=
  match h with
  | .identPred p => .ok (p methodname filename)
  | _ => .error .typeError

/-- Identification loop of identify_format: the filetype of the first
predicate returning true. -/
def first_identified : List RegEntry → String → String → Except PyErr (Option String)
  | [], _, _ => .ok none
  | e :: rest, m, f =>
    match run_identifier e.handler m f with
    | .error err => .error err
    | .ok true => .ok (some e.filetype)
    | .ok false => first_identified rest m f

/-- Deduplication worker mirroring the Python set comprehension. -/
def dedupAux (seen : List String) : List String → List String
  | [] => []
  | s :: rest =>
    if seen.contains s then dedupAux seen rest
    else s :: dedupAux (s :: seen) rest

/-- Distinct elements in first-occurrence order. -/
def dedupStrings (l : List String) : List String := dedupAux [] l

/-- Ascending insertion for sortStrings. -/
def insertSorted (x : String) : List String → List String
  | [] => [x]
  | y :: ys => if x < y then x :: y :: ys else y :: insertSorted x ys

/-- Python sorted on a list of strings. -/
def sortStrings (l : List String) : List String := l.foldr insertSorted []

/-- Embedding of RegionsRegistry.get_formats: the capability rows (header
row then one row per sorted distinct format), or none for the empty-string
sentinel the source returns when the class has no registrations at all. -/
def reg_get_formats (reg : Registry) (c : ClassObj) : Option (List (List String)) :=
  let filetypes :=
    sortStrings (dedupStrings ((reg.filter (fun e => decide (e.classobj = c))).map
      (fun e => e.filetype)))
  let header := ["Format", "Parse", "Serialize", "Read", "Write", "Auto-identify"]
  let rows := header :: filetypes.map (fun ft =>
    let keys := (reg.filter (fun e => decide (e.classobj = c ∧ e.filetype = ft))).map
      (fun e => e.methodname)
    ft :: (header.drop 1).map (fun col =>
      let nm := if pyContains col "identify" then "identify" else pyLower col
      if keys.contains nm then "Yes" else "No"))
  if rows.length = 1 then none else some rows

/-- Modelled from the spec: the astropy Table pformat renderer is an
external collaborator used exclusively to format the diagnostic capability
report; it is modelled as a plain row join, and the claims depend only on
the rendered table being embedded in the error message. -/
def tablePformat (rows : List (List String)) : List String :=
  rows.map (String.intercalate " ")

/-- Rendered capability-table hint for one class from its rows. -/
def format_table_render (c : ClassObj) (rows : List (List String)) : String :=
  String.intercalate "\n"
    (["", "The available formats for the " ++ c.name ++ " class are:", ""]
      ++ tablePformat rows)

/-- Embedding of _get_format_table_str: render the capability table; on
the empty-string sentinel the pformat attribute access raises
AttributeError before any registry error can be raised. -/
def reg_format_table_str (reg : Registry) (c : ClassObj) : Except PyErr String :=
  match reg_get_formats reg c with
  | none => .error (.attributeError "pformat")
  | some rows => .ok (format_table_render c rows)

/-- Fixed prefix of the identify_format failure message. -/
def identify_fail_msg : String :=
  "Format could not be identified based on the file name or contents, " ++
  "please provide a \"format\" argument.\n"

/-- Embedding of RegionsRegistry.identify_format: first matching identify
predicate wins; with no match, IORegistryError carrying the capability
table is raised (the table rendering itself can raise first). -/
def reg_identify_format (reg : Registry) (filename : String) (c : ClassObj)
    (methodname : String) : Except PyErr String :=
  match first_identified (reg_get_identifiers reg c) methodname filename with
  | .error e => .error e
  | .ok (some f) => .ok f
  | .ok none =>
    match reg_format_table_str reg c with
    | .ok ts => .error (.ioRegistryError (identify_fail_msg ++ ts))
    | .error e => .error e

/-- Format resolution shared by read and write: an explicit format is
taken as given, otherwise identify_format runs. -/
def resolve_format (reg : Registry) (filename : String) (c : ClassObj)
    (methodname : String) (format : Option String) : Except PyErr String :=
  match format with
  | some f => .ok f
  | none => reg_identify_format reg filename c methodname

/-- Message head of the missing-reader error of RegionsRegistry.read. -/
def read_err_msg (c : ClassObj) (fmt : String) : String :=
  "No reader defined for format \"" ++ fmt ++ "\" and class \"" ++ c.name ++ "\".\n"

/-- Embedding of RegionsRegistry.read up to handler invocation: the
resolved handler is returned for the caller to run.  A missing handler is
converted into IORegistryError with the capability-table hint (the
source wraps the lookup-and-call in a try block catching KeyError). -/
def reg_read (reg : Registry) (filename : String) (c : ClassObj)
    (format : Option String) : Except PyErr Handler :=
  match resolve_format reg filename c "read" format with
  | .error e => .error e
  | .ok fmt =>
    match lookupHandler reg c "read" fmt with
    | some h => .ok h
    | none =>
      match reg_format_table_str reg c with
      | .ok ts => .error (.ioRegistryError (read_err_msg c fmt ++ ts))
      | .error e => .error e

/-- Textual form of the Python KeyError carrying a registry key tuple. -/
def reg_key_repr (c : ClassObj) (m f : String) : String :=
  "(" ++ c.name ++ ", " ++ m ++ ", " ++ f ++ ")"

/-- Embedding of RegionsRegistry.write up to handler invocation: unlike
read, the source has no try block here, so a missing handler propagates
the raw KeyError of the dict subscript. -/
def reg_write (reg : Registry) (filename : String) (c : ClassObj)
    (format : Option String) : Except PyErr Handler :=
  match resolve_format reg filename c "write" format with
  | .error e => .error e
  | .ok fmt =>
    match lookupHandler reg c "write" fmt with
    | some h => .ok h
    | none => .error (.keyError (reg_key_repr c "write" fmt))

/-- Embedding of RegionsRegistry.serialize up to handler invocation: no
identification path and no try block; an unresolvable key raises the raw
KeyError (a missing format argument keeps the Python None key, which is
never registered). -/
def reg_serialize (reg : Registry) (c : ClassObj) (format : Option String) :
    Except PyErr Handler :=
  match format with
  | none => .error (.keyError (reg_key_repr c "serialize" "None"))
  | some f =>
    match lookupHandler reg c "serialize" f with
    | some h => .ok h
    | none => .error (.keyError (reg_key_repr c "serialize" f))

/-- Body of the legacy _serialize_ds9 given the external shape-list
converter (_to_shape_list followed by to_ds9, both outside src): the
converter applied to the regions, the format and the radius unit. -/
def serialize_ds9_legacy (ext : List RegionM → String → String → String)
    (regions : List RegionM) (fmt radunit : String) : String :=
  ext regions fmt radunit

/-- Module-load registration sequence of src/regions/io/ds9/write.py: the
stacked register decorators of _serialize_ds9 and _write_ds9 apply bottom
up, and _new_serialize_ds9 carries no decorator. -/
def ds9_registry : Except PyErr Registry :=
  match reg_register [] .regions "serialize" "ds9" .legacySerializeDs9 with
  | .error e => .error e
  | .ok r1 =>
    match reg_register r1 .region "serialize" "ds9" .legacySerializeDs9 with
    | .error e => .error e
    | .ok r2 =>
      match reg_register r2 .regions "write" "ds9" .legacyWriteDs9 with
      | .error e => .error e
      | .ok r3 => reg_register r3 .region "write" "ds9" .legacyWriteDs9

/-- The registry table the ds9 write module produces at load time. -/
def ds9_registry_list : Registry :=
  [⟨.regions, "serialize", "ds9", .legacySerializeDs9⟩,
   ⟨.region, "serialize", "ds9", .legacySerializeDs9⟩,
   ⟨.regions, "write", "ds9", .legacyWriteDs9⟩,
   ⟨.region, "write", "ds9", .legacyWriteDs9⟩]

/-- Running a dispatched ds9 serialize handler on a region list, given the
external shape-list converter: the legacy handler calls it with its
default format and radius unit; the new pipeline tag would run
new_serialize_ds9 at its default precision. -/
def run_ds9_serialize_handler (ext : List RegionM → String → String → String)
    (h : Handler) (rs : List RegionM) : Except PyErr String :=
  match h with
  | .legacySerializeDs9 => .ok (serialize_ds9_legacy ext rs ".6f" "deg")
  | .newSerializeDs9Fn => (new_serialize_ds9 rs 8).2
  | _ => .error .typeError

/-- Registry-dispatched ds9 serialization: resolve the handler through
RegionsRegistry.serialize and run it. -/
def dispatch_serialize_ds9 (reg : Registry) (c : ClassObj) (format : Option String)
    (ext : List RegionM → String → String → String) (rs : List RegionM) :
    Except PyErr String :=
  match reg_serialize reg c format with
  | .error e => .error e
  | .ok h => run_ds9_serialize_handler ext h rs

/-- Does a handler value denote the new per-region pipeline. -/
def isNewPipeline : Handler → Bool
  | .newSerializeDs9Fn => true
  | _ => false

/-- Is an Except outcome the registry error class. -/
def exceptIsIORegistry {α : Type} : Except PyErr α → Bool
  | .error (.ioRegistryError _) => true
  | _ => false

/-- Filesystem model for the write path: path to content, with Python
open-for-writing replacing the content of an existing path. -/
abbrev FileSys := List (String × String)

/-- Embedding of os.path.lexists on the filesystem model. -/
def lexists (fs : FileSys) (p : String) : Bool := (alistLookup fs p).isSome

/-- Embedding of _write_ds9: an existing destination without overwrite
raises OSError before the serializer runs or any byte is written;
otherwise the serialized text fully replaces the destination content. -/
def write_ds9 (ext : List RegionM → String → String → String) (fs : FileSys)
    (regions : List RegionM) (filename fmt radunit : String) (overwrite : Bool) :
    Except PyErr FileSys :=
  if lexists fs filename && !overwrite then
    .error (.osError (filename ++ " already exists"))
  else
    .ok (alistSet fs filename (serialize_ds9_legacy ext regions fmt radunit))

theorem alistLookup_set_self {β : Type} (m : List (String × β)) (k : String) (v : β) :
    alistLookup (alistSet m k v) k = some v := by
  induction m with
  | nil => simp [alistSet, alistLookup]
  | cons p rest ih =>
    by_cases h : p.1 = k
    · simp [alistSet, alistLookup, h]
    · simp [alistSet, alistLookup, h, ih]

theorem alistLookup_set_ne {β : Type} {x k : String} (m : List (String × β)) (v : β)
    (h : x ≠ k) : alistLookup (alistSet m k v) x = alistLookup m x := by
  have hkx : ¬ k = x := fun hh => h hh.symm
  induction m with
  | nil => simp [alistSet, alistLookup, hkx]
  | cons p rest ih =>
    by_cases hp : p.1 = k
    · subst hp
      simp [alistSet, alistLookup, hkx]
    · by_cases hx : p.1 = x <;> simp [alistSet, alistLookup, hp, hx, hkx, h, ih]

theorem alistLookup_erase_ne {β : Type} {x k : String} (m : List (String × β))
    (h : x ≠ k) : alistLookup (alistErase m k) x = alistLookup m x := by
  have hkx : ¬ k = x := fun hh => h hh.symm
  induction m with
  | nil => simp [alistErase]
  | cons p rest ih =>
    by_cases hp : p.1 = k
    · subst hp
      simp [alistErase, alistLookup, hkx, ih]
    · by_cases hx : p.1 = x <;> simp [alistErase, alistLookup, hp, hx, hkx, h, ih]

theorem alistLookup_erase_self {β : Type} (m : List (String × β)) (k : String) :
    alistLookup (alistErase m k) k = none := by
  induction m with
  | nil => simp [alistErase, alistLookup]
  | cons p rest ih =>
    by_cases hp : p.1 = k <;> simp [alistErase, alistLookup, hp, ih]

theorem mem_alistErase {β : Type} (p : String × β) (m : List (String × β)) (k : String) :
    p ∈ alistErase m k ↔ p ∈ m ∧ p.1 ≠ k := by
  induction m with
  | nil => simp [alistErase]
  | cons q rest ih =>
    by_cases hq : q.1 = k
    · simp only [alistErase, hq, if_pos, ih, List.mem_cons]
      constructor
      · exact fun ⟨h1, h2⟩ => ⟨Or.inr h1, h2⟩
      · rintro ⟨h1 | h1, h2⟩
        · exact absurd (h1 ▸ hq) h2
        · exact ⟨h1, h2⟩
    · simp only [alistErase, hq, if_neg, not_false_iff, List.mem_cons, ih]
      constructor
      · rintro (h1 | ⟨h1, h2⟩)
        · exact ⟨Or.inl h1, h1 ▸ hq⟩
        · exact ⟨Or.inr h1, h2⟩
      · rintro ⟨h1 | h1, h2⟩
        · exact Or.inl h1
        · exact Or.inr ⟨h1, h2⟩

theorem alistLookup_isSome_of_mem {β : Type} {k : String} {v : β}
    {m : List (String × β)} (h : (k, v) ∈ m) : ∃ w, alistLookup m k = some w := by
  induction m with
  | nil => cases h
  | cons p rest ih =>
    rcases List.mem_cons.mp h with h1 | h1
    · exact ⟨v, by simp [alistLookup, ← h1]⟩
    · by_cases hp : p.1 = k
      · exact ⟨p.2, by simp [alistLookup, hp]⟩
      · rcases ih h1 with ⟨w, hw⟩
        exact ⟨w, by simp [alistLookup, hp, hw]⟩

theorem alistLookup_none_iff {β : Type} (m : List (String × β)) (k : String) :
    alistLookup m k = none ↔ ∀ p ∈ m, p.1 ≠ k := by
  induction m with
  | nil => simp [alistLookup]
  | cons p rest ih =>
    by_cases hp : p.1 = k <;> simp [alistLookup, hp, ih]

theorem alistErase_keys_sublist {β : Type} (m : List (String × β)) (k : String) :
    ((alistErase m k).map Prod.fst).Sublist (m.map Prod.fst) := by
  induction m with
  | nil => simp [alistErase]
  | cons p rest ih =>
    by_cases hp : p.1 = k
    · simpa [alistErase, hp] using ih.trans (List.sublist_cons_self _ _)
    · simpa [alistErase, hp] using ih.cons₂ p.1

theorem translate_include_true {m : Meta}
    (h : alistLookup m "include" = some (.bool true)) :
    alistLookup (translate_include m) "include" = some (.int 1) := by
  unfold translate_include
  rw [h]
  simp [alistLookup_set_self]

theorem translate_include_other {m : Meta} {v : MetaVal}
    (h : alistLookup m "include" = some v) (hv : v ≠ .bool true) :
    alistLookup (translate_include m) "include" = some (.int 0) := by
  unfold translate_include
  rw [h]
  simp [hv, alistLookup_set_self]

theorem translate_include_none {m : Meta}
    (h : alistLookup m "include" = none) :
    alistLookup (translate_include m) "include" = some (.int 1) := by
  unfold translate_include
  rw [h]
  simp [alistLookup_set_self]

theorem translate_text_include (m : Meta) :
    alistLookup (translate_text m) "include" = alistLookup m "include" := by
  unfold translate_text
  cases h : alistLookup m "text" with
  | none => rfl
  | some v => exact alistLookup_set_ne _ _ (by decide)

theorem translate_width_include (m : Meta) :
    alistLookup (translate_width m) "include" = alistLookup m "include" := by
  unfold translate_width
  cases h1 : alistLookup m "linewidth" with
  | none =>
    simp only
    cases h2 : alistLookup m "markeredgewidth" with
    | none => rfl
    | some v =>
      rw [alistLookup_set_ne _ _ (by decide), alistLookup_erase_ne _ (by decide)]
  | some v =>
    simp only
    cases h2 : alistLookup (alistSet (alistErase m "linewidth") "width" v)
        "markeredgewidth" with
    | none =>
      rw [alistLookup_set_ne _ _ (by decide), alistLookup_erase_ne _ (by decide)]
    | some w =>
      rw [alistLookup_set_ne _ _ (by decide), alistLookup_erase_ne _ (by decide),
        alistLookup_set_ne _ _ (by decide), alistLookup_erase_ne _ (by decide)]

theorem translate_font_include {m m' : Meta} (h : translate_font m = .ok m') :
    alistLookup m' "include" = alistLookup m "include" := by
  unfold translate_font at h
  cases hf : alistLookup m "fontname" with
  | none =>
    rw [hf] at h
    cases h
    rfl
  | some fontname =>
    rw [hf] at h
    simp only at h
    cases hsty : alistLookup (alistErase (alistErase (alistErase m "fontname")
        "fontname") "fontname") "fontstyle" with
    | none =>
      rw [hsty] at h
      simp only [Option.getD] at h
      cases h
      rw [alistLookup_set_ne _ _ (by decide), alistLookup_erase_ne _ (by decide),
        alistLookup_erase_ne _ (by decide), alistLookup_erase_ne _ (by decide),
        alistLookup_erase_ne _ (by decide)]
    | some sv =>
      rw [hsty] at h
      simp only [Option.getD] at h
      cases sv with
      | str s =>
        cases h
        rw [alistLookup_set_ne _ _ (by decide), alistLookup_erase_ne _ (by decide),
          alistLookup_erase_ne _ (by decide), alistLookup_erase_ne _ (by decide),
          alistLookup_erase_ne _ (by decide)]
      | int n => cases h
      | bool b => cases h
      | rat q => cases h
      | intList l => cases h
      | strList l => cases h

theorem translate_dash_include {m m' : Meta} (h : translate_dash m = .ok m') :
    alistLookup m' "include" = alistLookup m "include" := by
  unfold translate_dash at h
  by_cases hc : alistLookup m "linestyle" = some (.str "dashed") ∨
      alistLookup m "linestyle" = some (.str "--")
  · rw [if_pos hc] at h
    simp only at h
    cases hd : alistLookup (alistSet (alistErase m "linestyle") "dash" (.int 1))
        "dashes" with
    | none =>
      rw [hd] at h
      cases h
      rw [alistLookup_set_ne _ _ (by decide), alistLookup_erase_ne _ (by decide)]
    | some d =>
      rw [hd] at h
      cases d with
      | intList l =>
        cases l with
        | nil => cases h
        | cons a tl =>
          cases tl with
          | nil => cases h
          | cons b tl2 =>
            cases h
            rw [alistLookup_set_ne _ _ (by decide), alistLookup_erase_ne _ (by decide),
              alistLookup_set_ne _ _ (by decide), alistLookup_erase_ne _ (by decide)]
      | str s => cases h
      | int n => cases h
      | bool b => cases h
      | rat q => cases h
      | strList l => cases h
  · rw [if_neg hc] at h
    cases h
    rw [alistLookup_erase_ne _ (by decide)]

theorem translate_marker_include {m m' : Meta} (h : translate_marker m = .ok m') :
    alistLookup m' "include" = alistLookup m "include" := by
  unfold translate_marker at h
  cases hm : alistLookup m "marker" with
  | none =>
    rw [hm] at h
    cases h
    rfl
  | some marker =>
    rw [hm] at h
    cases marker with
    | str ms =>
      simp only at h
      cases hs : alistLookup symbol_map_rev ms with
      | none => rw [hs] at h; cases h
      | some sym =>
        rw [hs] at h
        cases h
        rw [alistLookup_set_ne _ _ (by decide), alistLookup_erase_ne _ (by decide),
          alistLookup_erase_ne _ (by decide)]
    | int n => cases h
    | bool b => cases h
    | rat q => cases h
    | intList l => cases h
    | strList l => cases h

/-- C9: during metadata translation the inclusion flag is normalized to
the boolean-as-integer convention of the target format: an included region
(flag True) yields include=1, an excluded region (flag False) yields
include=0, and an absent flag defaults to included, include=1. -/
theorem c9_include_normalization (m m' : Meta) (h : translate_ds9_meta m = .ok m') :
    (alistLookup m "include" = some (.bool true) →
      alistLookup m' "include" = some (.int 1)) ∧
    (alistLookup m "include" = some (.bool false) →
      alistLookup m' "include" = some (.int 0)) ∧
    (alistLookup m "include" = none →
      alistLookup m' "include" = some (.int 1)) := by
  unfold translate_ds9_meta at h
  cases hf : translate_font (translate_width (translate_text (translate_include m))) with
  | error e => rw [hf] at h; cases h
  | ok m1 =>
    rw [hf] at h
    simp only at h
    cases hd : translate_dash m1 with
    | error e => rw [hd] at h; cases h
    | ok m2 =>
      rw [hd] at h
      simp only at h
      have p1 := translate_marker_include h
      have p2 := translate_dash_include hd
      have p3 := translate_font_include hf
      have p4 := translate_width_include (translate_text (translate_include m))
      have p5 := translate_text_include (translate_include m)
      refine ⟨fun hi => ?_, fun hi => ?_, fun hi => ?_⟩
      · rw [p1, p2, p3, p4, p5, translate_include_true hi]
      · rw [p1, p2, p3, p4, p5, translate_include_other hi (by decide)]
      · rw [p1, p2, p3, p4, p5, translate_include_none hi]

/-- C9 witness: the empty metadata dict translates successfully and the
absent inclusion flag defaults to include=1. -/
theorem c9_include_normalization_witness :
    alistLookup [("include", MetaVal.int 1)] "include" = some (MetaVal.int 1) :=
  (c9_include_normalization [] [("include", MetaVal.int 1)] rfl).2.2 rfl

/-- C2 counterexample: on the registry the ds9 module builds, write with
an explicit format that has no write handler propagates the raw KeyError
of the dict lookup instead of raising IORegistryError. -/
theorem c2_counterexample :
    reg_write ds9_registry_list "out.reg" ClassObj.regions (some "crtf") =
      .error (.keyError (reg_key_repr ClassObj.regions "write" "crtf")) ∧
    exceptIsIORegistry
      (reg_write ds9_registry_list "out.reg" ClassObj.regions (some "crtf")) = false :=
  ⟨rfl, rfl⟩

/-- C2 amended: a missing read handler is converted into IORegistryError
whose message embeds the rendered capability table (when that table is
renderable, which needs at least one registration for the class), while a
missing write handler propagates the raw KeyError lookup failure. -/
theorem c2_missing_handler (reg : Registry) (file : String) (c : ClassObj)
    (fmt ts : String) :
    (lookupHandler reg c "read" fmt = none → reg_format_table_str reg c = .ok ts →
      reg_read reg file c (some fmt) =
        .error (.ioRegistryError (read_err_msg c fmt ++ ts))) ∧
    (lookupHandler reg c "write" fmt = none →
      reg_write reg file c (some fmt) =
        .error (.keyError (reg_key_repr c "write" fmt))) := by
  constructor
  · intro h1 h2
    simp only [reg_read, resolve_format, h1, h2]
  · intro h1
    simp only [reg_write, resolve_format, h1]

/-- C2 witness: on the ds9 registry, read with the crtf format (for which
no read handler exists) raises IORegistryError embedding the rendered
capability table of the Regions class. -/
theorem c2_missing_handler_witness :
    reg_read ds9_registry_list "in.reg" ClassObj.regions (some "crtf") =
      .error (.ioRegistryError (read_err_msg ClassObj.regions "crtf" ++
        format_table_render ClassObj.regions
          [["Format", "Parse", "Serialize", "Read", "Write", "Auto-identify"],
           ["ds9", "No", "Yes", "No", "Yes", "No"]])) :=
  (c2_missing_handler ds9_registry_list "in.reg" ClassObj.regions "crtf"
    (format_table_render ClassObj.regions
      [["Format", "Parse", "Serialize", "Read", "Write", "Auto-identify"],
       ["ds9", "No", "Yes", "No", "Yes", "No"]])).1 rfl rfl

/-- C7 counterexample: for a class with no registrations at all (hence no
identify predicates), identify_format raises AttributeError from the
capability-table rendering, not IORegistryError. -/
theorem c7_counterexample :
    reg_identify_format ([] : Registry) "file.reg" ClassObj.regions "read" =
      .error (.attributeError "pformat") ∧
    exceptIsIORegistry
      (reg_identify_format ([] : Registry) "file.reg" ClassObj.regions "read") = false :=
  ⟨rfl, rfl⟩

/-- C7 amended: for every class with zero identify predicates but at least
one registered handler of some kind (so the capability table renders),
identify_format raises IORegistryError carrying the capability table. -/
theorem c7_no_identifier (reg : Registry) (filename methodname : String)
    (c : ClassObj) (rows : List (List String))
    (h1 : reg_get_identifiers reg c = [])
    (h2 : reg_get_formats reg c = some rows) :
    reg_identify_format reg filename c methodname =
      .error (.ioRegistryError (identify_fail_msg ++ format_table_render c rows)) := by
  simp only [reg_identify_format, reg_format_table_str, h1, h2, first_identified]

/-- Registry with one read handler and no identify predicate, exercising
the amended C7 statement. -/
def c7_registry : Registry := [⟨.regions, "read", "myfmt", .other "reader"⟩]

/-- C7 witness: on a registry holding only a read handler, identification
fails with IORegistryError embedding the one-format capability table. -/
theorem c7_no_identifier_witness :
    reg_identify_format c7_registry "file.reg" ClassObj.regions "read" =
      .error (.ioRegistryError (identify_fail_msg ++
        format_table_render ClassObj.regions
          [["Format", "Parse", "Serialize", "Read", "Write", "Auto-identify"],
           ["myfmt", "No", "No", "Yes", "No", "No"]])) :=
  c7_no_identifier c7_registry "file.reg" "read" ClassObj.regions
    [["Format", "Parse", "Serialize", "Read", "Write", "Auto-identify"],
     ["myfmt", "No", "No", "Yes", "No", "No"]] rfl rfl

/-- C10: the module-load registration of the ds9 write module registers
exactly the legacy serialize and write functions for both classes under
format ds9, never the new per-region pipeline, and registry-dispatched
ds9 serialization runs the legacy function with its default format .6f
and radius unit deg for every input and every external converter. -/
theorem c10_registry_uses_legacy :
    ds9_registry = .ok ds9_registry_list ∧
    lookupHandler ds9_registry_list .region "serialize" "ds9" = some .legacySerializeDs9 ∧
    lookupHandler ds9_registry_list .regions "serialize" "ds9" = some .legacySerializeDs9 ∧
    lookupHandler ds9_registry_list .region "write" "ds9" = some .legacyWriteDs9 ∧
    lookupHandler ds9_registry_list .regions "write" "ds9" = some .legacyWriteDs9 ∧
    ds9_registry_list.all (fun e => !(isNewPipeline e.handler)) = true ∧
    (∀ (ext : List RegionM → String → String → String) (c : ClassObj)
        (rs : List RegionM),
      dispatch_serialize_ds9 ds9_registry_list c (some "ds9") ext rs =
        .ok (serialize_ds9_legacy ext rs ".6f" "deg")) := by
  refine ⟨rfl, rfl, rfl, rfl, rfl, rfl, ?_⟩
  intro ext c rs
  cases c <;> rfl

/-- C3: writing through _write_ds9 on an existing destination without
overwrite raises OSError with the filesystem untouched (the error is
produced before the serializer output is consulted, uniformly in the
external converter), and with overwrite the destination content afterwards
is exactly the serialized text, fully replacing the prior content. -/
theorem c3_write_protection (ext : List RegionM → String → String → String)
    (fs : FileSys) (regions : List RegionM) (filename fmt radunit : String) :
    (lexists fs filename = true →
      write_ds9 ext fs regions filename fmt radunit false =
        .error (.osError (filename ++ " already exists"))) ∧
    (write_ds9 ext fs regions filename fmt radunit true =
      .ok (alistSet fs filename (serialize_ds9_legacy ext regions fmt radunit)) ∧
     alistLookup (alistSet fs filename (serialize_ds9_legacy ext regions fmt radunit))
        filename = some (serialize_ds9_legacy ext regions fmt radunit)) := by
  refine ⟨fun h => ?_, ?_, alistLookup_set_self _ _ _⟩
  · simp [write_ds9, h]
  · simp [write_ds9]

/-- C3 witness: with a one-file filesystem holding old content at the
destination, the unpermitted write fails with OSError. -/
theorem c3_write_protection_witness :
    write_ds9 (fun _ _ _ => "new") [("out.reg", "old")] [] "out.reg" ".6f" "deg" false =
      .error (.osError ("out.reg" ++ " already exists")) :=
  (c3_write_protection (fun _ _ _ => "new") [("out.reg", "old")] [] "out.reg"
    ".6f" "deg").1 rfl

/-- Sky circle whose resolved frame fk4noeterms has no entry in the ds9
frame mapping. -/
def badframe_region : RegionM :=
  { className := "CircleSkyRegion", isPixel := false,
    params := ["center", "radius"],
    attrs := [("center", .sky ⟨"fk4noeterms", "10.0 20.0"⟩), ("radius", .angle 1)],
    meta := [], visual := [] }

/-- Sky region of a shape kind (vector) with no ds9 shape template. -/
def vector_region : RegionM :=
  { className := "VectorSkyRegion", isPixel := false,
    params := ["start"],
    attrs := [("start", .sky ⟨"icrs", "1.0 2.0"⟩)],
    meta := [], visual := [] }

/-- C1: evaluating the per-region pipeline at a region with an unmapped
frame and at a region with an unmapped shape shows that the code emits
the skip warning but then raises KeyError from the mapping subscript,
aborting the whole serialization instead of skipping the region. -/
theorem c1_skip_raises_keyerror :
    new_serialize_ds9 [badframe_region] 8 =
      (["Cannot serialize region with frame=fk4noeterms, skipping"],
       .error (.keyError "fk4noeterms")) ∧
    new_serialize_ds9 [vector_region] 8 =
      (["Cannot serialize region shape \"vector\", skipping"],
       .error (.keyError "vector")) :=
  ⟨rfl, rfl⟩

/-- Pixel circle of radius 5.0 centered at the 0-based pixel (9, 9). -/
def circle_pix_region : RegionM :=
  { className := "CirclePixelRegion", isPixel := true,
    params := ["center", "radius"],
    attrs := [("center", .pix 9 9), ("radius", .num 5)],
    meta := [], visual := [] }

/-- C6: the pixel circle of radius 5.0 at (9, 9) serializes at the default
precision 8 with frame keyword image and shape clause
circle(10,10,5.00000000): the one-based origin shift and the eight-digit
fixed-decimal radius. -/
theorem c6_circle_literal_example :
    ∃ d, serialize_region_ds9 circle_pix_region 8 = ([], .ok d) ∧
      d.frame = "image" ∧ d.shape = "circle(10,10,5.00000000)" :=
  ⟨⟨"image", "circle(10,10,5.00000000)", [("include", MetaVal.int 1)]⟩, rfl, rfl, rfl⟩

/-- The pixel circle carrying a two-valued tag list in its metadata. -/
def tagged_circle_region : RegionM :=
  { className := "CirclePixelRegion", isPixel := true,
    params := ["center", "radius"],
    attrs := [("center", .pix 9 9), ("radius", .num 5)],
    meta := [("tag", MetaVal.strList ["a", "b"])], visual := [] }

/-- C4: evaluating the pipeline on a collection whose region carries the
tag list [a, b] shows the aliased tag pop of _new_serialize_ds9 deleting
the tag entry from the region metadata itself: the emitted region line
carries no tag token at all (the tag is also, correctly, not hoisted into
the global line). -/
theorem c4_tag_tokens_lost :
    new_serialize_ds9 [tagged_circle_region] 8 =
      ([], .ok ("# Region file format: DS9 astropy/regions\n" ++
        "global include=1\n" ++
        "image; circle(10,10,5.00000000) # \n")) :=
  rfl

/-- C8: evaluating the metadata translation at a dict carrying an explicit
fontsize 12 and fontweight bold shows both ignored: the pops of the font
paragraph reuse the key fontname, so the composed descriptor always takes
the defaults size 10 and weight normal, and the fontsize and fontweight
entries survive untouched. -/
theorem c8_font_defaults_override_set_values :
    translate_ds9_meta
      [("fontname", MetaVal.str "helvetica"), ("fontsize", MetaVal.int 12),
       ("fontweight", MetaVal.str "bold")] =
      .ok [("fontsize", MetaVal.int 12), ("fontweight", MetaVal.str "bold"),
           ("include", MetaVal.int 1),
           ("font", MetaVal.str "\"helvetica 10 normal roman\"")] :=
  rfl

theorem remove_global_keys_spec (g : Meta) :
    ∀ m : Meta, (g.map Prod.fst).Nodup →
    (∀ p ∈ g, ∃ w, alistLookup m p.1 = some w) →
    ∃ m', remove_global_keys g m = .ok m' ∧
      (∀ x ∈ g.map Prod.fst, alistLookup m' x = none) ∧
      (∀ p, p ∈ m' → p ∈ m) := by
  induction g with
  | nil =>
    intro m _ _
    exact ⟨m, rfl, by simp, fun p hp => hp⟩
  | cons q rest ih =>
    intro m hnd hin
    obtain ⟨w, hw⟩ := hin q (List.mem_cons_self q rest)
    have hnd0 : (q.1 :: rest.map Prod.fst).Nodup := by simpa using hnd
    have hq1 : q.1 ∉ rest.map Prod.fst := (List.nodup_cons.mp hnd0).1
    have hnd' : (rest.map Prod.fst).Nodup := (List.nodup_cons.mp hnd0).2
    have hin' : ∀ p ∈ rest, ∃ w, alistLookup (alistErase m q.1) p.1 = some w := by
      intro p hp
      have hne : p.1 ≠ q.1 := by
        intro he
        exact hq1 (he ▸ List.mem_map_of_mem Prod.fst hp)
      rw [alistLookup_erase_ne _ hne]
      exact hin p (List.mem_cons_of_mem _ hp)
    obtain ⟨m', hm', hnone, hsub⟩ := ih (alistErase m q.1) hnd' hin'
    refine ⟨m', ?_, ?_, ?_⟩
    · simp only [remove_global_keys, hw, hm']
    · intro x hx
      rw [List.map_cons] at hx
      rcases List.mem_cons.mp hx with h1 | h1
      · subst h1
        rw [alistLookup_none_iff]
        intro p hp
        exact ((mem_alistErase p m q.1).mp (hsub p hp)).2
      · exact hnone x h1
    · intro p hp
      exact ((mem_alistErase p m q.1).mp (hsub p hp)).1

theorem remove_all_globals_spec (g : Meta) (hnd : (g.map Prod.fst).Nodup) :
    ∀ l : List RegionData,
    (∀ d ∈ l, ∀ p ∈ g, ∃ w, alistLookup d.meta p.1 = some w) →
    ∃ fs, remove_all_globals g l = .ok fs ∧
      (∀ d' ∈ fs, (∀ x ∈ g.map Prod.fst, alistLookup d'.meta x = none) ∧
        (∃ d ∈ l, ∀ p ∈ d'.meta, p ∈ d.meta)) := by
  intro l
  induction l with
  | nil => exact fun _ => ⟨[], rfl, by simp⟩
  | cons d rest ih =>
    intro hin
    obtain ⟨m', hm', hnone, hsub⟩ :=
      remove_global_keys_spec g d.meta hnd (hin d (List.mem_cons_self d rest))
    obtain ⟨fs, hfs, hprop⟩ := ih (fun d2 hd2 p hp => hin d2 (List.mem_cons_of_mem _ hd2) p hp)
    refine ⟨⟨d.frame, d.shape, m'⟩ :: fs, ?_, ?_⟩
    · simp only [remove_all_globals, hm', hfs]
    · intro d' hd'
      rcases List.mem_cons.mp hd' with h1 | h1
      · subst h1
        exact ⟨hnone, ⟨d, List.mem_cons_self d rest, hsub⟩⟩
      · obtain ⟨ha, dd, hdd, hs⟩ := hprop d' h1
        exact ⟨ha, ⟨dd, List.mem_cons_of_mem _ hdd, hs⟩⟩

theorem make_meta_str_ok (m : Meta) (h : ∀ p ∈ m, p.1 ≠ "tag") :
    ∃ s, make_meta_str m = .ok s := by
  have hts : ∃ ts, metaTokens m = .ok ts := by
    induction m with
    | nil => exact ⟨[], rfl⟩
    | cons p rest ih =>
      obtain ⟨ts, hts⟩ := ih (fun q hq => h q (List.mem_cons_of_mem _ hq))
      obtain ⟨k, v⟩ := p
      have hp : ¬ k = "tag" := h (k, v) (List.mem_cons_self _ rest)
      exact ⟨(k ++ "=" ++ pyStr v) :: ts, by simp only [metaTokens, if_neg hp, hts]⟩
  obtain ⟨ts, hts⟩ := hts
  exact ⟨String.intercalate " " ts, by simp only [make_meta_str, hts]⟩

theorem render_region_lines_ok (l : List RegionData)
    (h : ∀ d ∈ l, ∀ p ∈ d.meta, p.1 ≠ "tag") :
    ∃ s, render_region_lines l = .ok s := by
  induction l with
  | nil => exact ⟨"", rfl⟩
  | cons d rest ih =>
    obtain ⟨ms, hms⟩ := make_meta_str_ok d.meta (h d (List.mem_cons_self d rest))
    obtain ⟨tl, htl⟩ := ih (fun d2 hd2 => h d2 (List.mem_cons_of_mem _ hd2))
    exact ⟨d.frame ++ "; " ++ d.shape ++ " # " ++ ms ++ "\n" ++ tl,
      by simp only [render_region_lines, hms, htl]⟩

/-- C5: when every region of a nonempty collection carries the identical
non-tag metadata pair (k, v), the global intersection contains (k, v), is
nonempty (so exactly one global line is emitted), the key k is removed by
key from every region before line emission (no final region metadata
contains k), and the assembled document is the header followed by the one
global line followed by the region lines. -/
theorem c5_global_factoring (rds : List RegionData) (k : String) (v : MetaVal)
    (hk : k ≠ "tag")
    (hne : rds ≠ [])
    (hwf : ∀ d ∈ rds, ((d.meta.map Prod.fst).Nodup))
    (hkv : ∀ d ∈ rds, (k, v) ∈ d.meta) :
    ∃ g finals gs lines,
      global_meta_of ((erase_tag_all rds).map (fun d => d.meta)) = .ok g ∧
      (k, v) ∈ g ∧ g ≠ [] ∧
      remove_all_globals g (erase_tag_all rds) = .ok finals ∧
      (∀ d ∈ finals, alistLookup d.meta k = none) ∧
      make_meta_str g = .ok gs ∧
      render_region_lines finals = .ok lines ∧
      assemble_ds9 rds = .ok (ds9_file_header ++ ("global " ++ gs ++ "\n") ++ lines) := by
  obtain ⟨d0, rest, rfl⟩ : ∃ d0 rest, rds = d0 :: rest := by
    cases rds with
    | nil => exact absurd rfl hne
    | cons d0 rest => exact ⟨d0, rest, rfl⟩
  have hmetas : (erase_tag_all (d0 :: rest)).map (fun d => d.meta) =
      (alistErase d0.meta "tag") :: rest.map (fun d => alistErase d.meta "tag") := by
    simp [erase_tag_all]
  set ems := rest.map (fun d => alistErase d.meta "tag") with hems
  set g := (alistErase d0.meta "tag").filter
      (fun p => ems.all (fun m => decide (p ∈ m))) with hgdef
  have hg : global_meta_of ((erase_tag_all (d0 :: rest)).map (fun d => d.meta)) = .ok g := by
    rw [hmetas]
    rfl
  have hkv0 : (k, v) ∈ alistErase d0.meta "tag" :=
    (mem_alistErase (k, v) d0.meta "tag").mpr ⟨hkv d0 (List.mem_cons_self _ _), hk⟩
  have hkvall : ∀ m ∈ ems, (k, v) ∈ m := by
    intro m hm
    rw [hems] at hm
    obtain ⟨d, hd, rfl⟩ := List.mem_map.mp hm
    exact (mem_alistErase (k, v) d.meta "tag").mpr
      ⟨hkv d (List.mem_cons_of_mem _ hd), hk⟩
  have hkvg : (k, v) ∈ g := by
    rw [hgdef]
    refine List.mem_filter.mpr ⟨hkv0, ?_⟩
    rw [List.all_eq_true]
    intro m hm
    exact decide_eq_true (hkvall m hm)
  have hgne : g ≠ [] := fun he => by rw [he] at hkvg; cases hkvg
  have hgsub : ∀ p ∈ g, p ∈ alistErase d0.meta "tag" :=
    fun p hp => (List.mem_filter.mp (hgdef ▸ hp)).1
  have hgall : ∀ p ∈ g, ∀ m ∈ ems, p ∈ m := by
    intro p hp m hm
    have h2 := (List.mem_filter.mp (hgdef ▸ hp)).2
    rw [List.all_eq_true] at h2
    exact of_decide_eq_true (h2 m hm)
  have hgtagfree : ∀ p ∈ g, p.1 ≠ "tag" :=
    fun p hp => ((mem_alistErase p d0.meta "tag").mp (hgsub p hp)).2
  have hgnd : (g.map Prod.fst).Nodup := by
    have h0 : ((alistErase d0.meta "tag").map Prod.fst).Nodup :=
      (hwf d0 (List.mem_cons_self _ _)).sublist (alistErase_keys_sublist d0.meta "tag")
    exact h0.sublist ((List.filter_sublist _).map Prod.fst)
  have hin : ∀ d ∈ erase_tag_all (d0 :: rest), ∀ p ∈ g,
      ∃ w, alistLookup d.meta p.1 = some w := by
    intro d hd p hp
    have hdm : d.meta ∈ (erase_tag_all (d0 :: rest)).map (fun d => d.meta) :=
      List.mem_map_of_mem _ hd
    rw [hmetas] at hdm
    have hpm : p ∈ d.meta := by
      rcases List.mem_cons.mp hdm with h1 | h1
      · rw [h1]; exact hgsub p hp
      · exact hgall p hp d.meta h1
    exact alistLookup_isSome_of_mem (show (p.1, p.2) ∈ d.meta from by simpa using hpm)
  obtain ⟨finals, hfin, hfprop⟩ := remove_all_globals_spec g hgnd (erase_tag_all (d0 :: rest)) hin
  have hknone : ∀ d ∈ finals, alistLookup d.meta k = none := by
    intro d hd
    exact (hfprop d hd).1 k (List.mem_map_of_mem Prod.fst hkvg)
  have hftagfree : ∀ d ∈ finals, ∀ p ∈ d.meta, p.1 ≠ "tag" := by
    intro d hd p hp
    obtain ⟨dd, hdd, hs⟩ := (hfprop d hd).2
    have hpm := hs p hp
    have hdm : dd.meta ∈ (erase_tag_all (d0 :: rest)).map (fun d => d.meta) :=
      List.mem_map_of_mem _ hdd
    rw [hmetas] at hdm
    rcases List.mem_cons.mp hdm with h1 | h1
    · rw [h1] at hpm
      exact ((mem_alistErase p d0.meta "tag").mp hpm).2
    · rw [hems] at h1
      obtain ⟨d2, _, h2⟩ := List.mem_map.mp h1
      rw [← h2] at hpm
      exact ((mem_alistErase p d2.meta "tag").mp hpm).2
  obtain ⟨gs, hgs⟩ := make_meta_str_ok g hgtagfree
  obtain ⟨lines, hlines⟩ := render_region_lines_ok finals hftagfree
  refine ⟨g, finals, gs, lines, hg, hkvg, hgne, hfin, hknone, hgs, hlines, ?_⟩
  have hempty : g.isEmpty = false := by
    cases hgl : g with
    | nil => exact absurd hgl hgne
    | cons a b => rfl
  simp only [assemble_ds9, hg, hempty, Bool.false_eq_true, if_false, hgs, hfin, hlines]

/-- Two-region collection sharing the color red used to witness the
global-factoring theorem. -/
def c5_regions : List RegionData :=
  [⟨"image", "circle(1,1)", [("color", MetaVal.str "red"), ("width", MetaVal.int 2)]⟩,
   ⟨"image", "circle(2,2)", [("color", MetaVal.str "red")]⟩]

/-- C5 witness: the shared color pair of the two-region collection is
factored into the single global line and removed from both region lines. -/
theorem c5_global_factoring_witness :
    ∃ g finals gs lines,
      global_meta_of ((erase_tag_all c5_regions).map (fun d => d.meta)) = .ok g ∧
      ("color", MetaVal.str "red") ∈ g ∧ g ≠ [] ∧
      remove_all_globals g (erase_tag_all c5_regions) = .ok finals ∧
      (∀ d ∈ finals, alistLookup d.meta "color" = none) ∧
      make_meta_str g = .ok gs ∧
      render_region_lines finals = .ok lines ∧
      assemble_ds9 c5_regions = .ok (ds9_file_header ++ ("global " ++ gs ++ "\n") ++ lines) :=
  c5_global_factoring c5_regions "color" (MetaVal.str "red") (by decide) (by decide)
    (by decide) (by decide)
